import Mathlib

/-!
Verification of the cczero MCTS search orchestration and network-factory code.

The development shallowly embeds:
* `SearchLimits` and the `Search` control fields from `mcts/search.h`
  (src/unnamed/part_000);
* `NetworkFactory` registration and creation from `neural/factory.cc`
  (src/unnamed/part_001).

Where only declarations are available in the sources (the bodies of
`Search`/`SearchWorker` live in a file not present here), the corresponding
definitions are modelled from the specification and say so in their doc
comments.
-/

namespace cczero

/-- A move, abstracted: move generation is an external collaborator, only
identity of moves matters for the search-level properties proved here. -/
abbrev Move := Nat

/-- Embeds `struct SearchLimits` (part_000 lines 37–43) with its C++ default
member initializers: `visits`, `playouts`, `time_ms` are `std::int64_t`
defaulting to `-1`, `infinite` a `bool` defaulting to `false`, and
`searchmoves` a `MoveList` (default-constructed empty). -/
structure SearchLimits where
  visits : Int
  playouts : Int
  time_ms : Int
  infinite : Bool
  searchmoves : List Move

/-- The default-constructed `SearchLimits` (part_000 lines 37–43). -/
def defaultSearchLimits : SearchLimits := ⟨-1, -1, -1, false, []⟩

/-- Modelled from the spec (§4.4, `SearchWorker::IsSearchActive` body is not
under src/): the visits limit is reached when `visits >= 0` and
`total_playouts_ + initial_visits_ >= visits`. -/
def visitsLimitReached (limits : SearchLimits) (total_playouts initial_visits : Int) : Bool :=
  limits.visits ≥ 0 && total_playouts + initial_visits ≥ limits.visits

/-- Modelled from the spec (§4.4): the playouts limit is reached when
`playouts >= 0` and `total_playouts_ >= playouts`. -/
def playoutsLimitReached (limits : SearchLimits) (total_playouts : Int) : Bool :=
  limits.playouts ≥ 0 && total_playouts ≥ limits.playouts

/-- Modelled from the spec (§4.4): the time limit is reached when
`time_ms >= 0` and the time elapsed since `start_time_` is at least
`time_ms`. -/
def timeLimitReached (limits : SearchLimits) (elapsed_ms : Int) : Bool :=
  limits.time_ms ≥ 0 && elapsed_ms ≥ limits.time_ms

/-- Modelled from the spec (§4.4, the body of `SearchWorker::IsSearchActive`,
declared at part_000 lines 199–200, is not under src/): the search is active
when `stop_` is false and no configured limit is reached; `infinite` forces
the search to stay active until `stop_` is set.  Smart pruning terminates the
search by setting `found_best_move_` and then `stop_`, so it enters this
predicate only through the `stop` input. -/
def isSearchActive (limits : SearchLimits) (stop : Bool)
    (total_playouts initial_visits elapsed_ms : Int) : Bool :=
  !stop &&
    (limits.infinite ||
      !(visitsLimitReached limits total_playouts initial_visits ||
        playoutsLimitReached limits total_playouts ||
        timeLimitReached limits elapsed_ms))

/-- Events acting on the search's completion control plane.  Modelled from the
spec (§4.4 and §5, the bodies of `Search::Stop`, `Search::Abort` — declared at
part_000 lines 68–70 — and of the workers' completion path are not under
src/). -/
inductive SearchEvent
  /-- `Stop()`: sets `stop_`; bestmove will still be published. -/
  | stopCmd
  /-- `Abort()`: sets `stop_` and `responded_bestmove_` both. -/
  | abortCmd
  /-- A worker reaching the completion point: tests `responded_bestmove_`
  and, if it is still false, sets it and emits the `BestMoveInfo` callback. -/
  | workerRespond
deriving DecidableEq

/-- The control-plane fields of `Search` relevant to bestmove publication
(part_000 lines 122–126), together with a count of how many times
`best_move_callback_` has been invoked. -/
structure ControlState where
  stop_ : Bool
  responded_bestmove_ : Bool
  callback_count : Nat
deriving DecidableEq

/-- Initial control state: `stop_ = false`, `responded_bestmove_ = false`
(part_000 lines 123 and 126), no callback emitted yet. -/
def initialControlState : ControlState := ⟨false, false, 0⟩

/-- Modelled from the spec (§4.4 stop signaling, §5 single-publisher):
one event's effect on the control state.  `workerRespond` is the
compare-and-set on `responded_bestmove_`; only a successful set emits the
callback. -/
def stepControl (s : ControlState) : SearchEvent → ControlState
  | .stopCmd => ⟨true, s.responded_bestmove_, s.callback_count⟩
  | .abortCmd => ⟨true, true, s.callback_count⟩
  | .workerRespond =>
      if s.responded_bestmove_ then s
      else ⟨s.stop_, true, s.callback_count + 1⟩

/-- Runs a sequence of control-plane events from the initial state. -/
def runControl (evs : List SearchEvent) : ControlState :=
  evs.foldl stepControl initialControlState

/-- Whether a worker reaches the completion point before any `Abort()`:
exactly the traces on which the final `BestMoveInfo` callback is emitted. -/
def publishesBestmove : List SearchEvent → Bool
  | [] => false
  | .abortCmd :: _ => false
  | .workerRespond :: _ => true
  | .stopCmd :: rest => publishesBestmove rest

/-- The mutexes of `Search` (part_000 lines 121, 133, 146). -/
inductive MutexId
  | nodes
  | counters
  | threads
deriving DecidableEq

/-- The `GUARDED_BY`-annotated fields of `Search` (part_000 lines 123–152,
133–134). -/
inductive GuardedField
  | stop_
  | responded_bestmove_
  | found_best_move_
  | best_move_
  | threads_
  | best_move_edge_
  | last_outputted_best_move_edge_
  | uci_info_
  | total_playouts_
  | remaining_playouts_
deriving DecidableEq

/-- The guard map read off the `GUARDED_BY` annotations in part_000:
lines 123, 126, 128, 131 put the four control fields under `counters_mutex_`,
line 134 puts `threads_` under `threads_mutex_`, and lines 147–152 put the
tree-statistics fields (including `total_playouts_`) under `nodes_mutex_`. -/
def guardOf : GuardedField → MutexId
  | .stop_ => .counters
  | .responded_bestmove_ => .counters
  | .found_best_move_ => .counters
  | .best_move_ => .counters
  | .threads_ => .threads
  | .best_move_edge_ => .nodes
  | .last_outputted_best_move_edge_ => .nodes
  | .uci_info_ => .nodes
  | .total_playouts_ => .nodes
  | .remaining_playouts_ => .nodes

/-- The static lock-order annotation of part_000 line 121:
`counters_mutex_ ACQUIRED_AFTER(nodes_mutex_)`. -/
def acquiredAfter : MutexId → Option MutexId
  | .counters => some .nodes
  | _ => none

/-- Primitive operations appearing in the stage-7 (`UpdateCounters`)
critical section. -/
inductive LockOp
  | acquire (m : MutexId)
  | release (m : MutexId)
  | incrTotalPlayouts
  | evalStopConditions
  | maybeOutputInfo
deriving DecidableEq

/-- Modelled from the spec (§4.2 stage 7, the body of
`SearchWorker::UpdateCounters`, declared at part_000 line 223, is not under
src/): "Under the counters lock: increment `total_playouts_`, re-evaluate
stop conditions, maybe emit info".  Since `total_playouts_` is
`GUARDED_BY(nodes_mutex_)` (part_000 line 150) and `counters_mutex_` is
`ACQUIRED_AFTER(nodes_mutex_)` (line 121), the section takes `nodes_mutex_`
first, then `counters_mutex_`. -/
def updateCountersTrace : List LockOp :=
  [.acquire .nodes, .acquire .counters,
   .incrTotalPlayouts, .evalStopConditions, .maybeOutputInfo,
   .release .counters, .release .nodes]

/-- One lock operation's effect on the set of held mutexes. -/
def applyLockOp (held : List MutexId) : LockOp → List MutexId
  | .acquire m => m :: held
  | .release m => held.erase m
  | _ => held

/-- The mutexes held just before the `i`-th operation of a trace. -/
def heldAt (tr : List LockOp) (i : Nat) : List MutexId :=
  (tr.take i).foldl applyLockOp []

/-- Per-child statistics visible to best-move selection: the child's visit
count `n` and its value estimate `q = w / n`.  The children are listed in
edge (move-generation) order. -/
structure ChildStat where
  n : Nat
  q : Rat
deriving DecidableEq

/-- Modelled from the spec (§4.5, the body of
`Search::GetBestChildNoTemperature`, declared at part_000 line 106, is not
under src/): child `a` strictly beats child `b` when it has more visits, or
equal visits and strictly higher `q`. -/
def betterChild (a b : ChildStat) : Bool :=
  b.n < a.n || (a.n == b.n && b.q < a.q)

/-- One step of the best-child scan: combines the head child (at index `0`)
with the best of the tail (shifted by one); the incumbent from the tail is
kept only when strictly better, so ties go to the earlier edge. -/
def bestChildStep (c : ChildStat) : Option (Nat × ChildStat) → Option (Nat × ChildStat)
  | none => some (0, c)
  | some (j, b) => if betterChild b c then some (j + 1, b) else some (0, c)

/-- Modelled from the spec (§4.5): returns the index (in edge order) and the
statistics of the child with maximum `n`, ties broken by higher `q`, then by
earlier edge order; `none` on a node with no children. -/
def getBestChildNoTemperature : List ChildStat → Option (Nat × ChildStat)
  | [] => none
  | c :: rest => bestChildStep c (getBestChildNoTemperature rest)

/-- Modelled from the spec (§4.5): the effective temperature `T_eff` is the
configured temperature while the move number is within `TempDecayMoves`,
and `0` afterwards. -/
def effectiveTemperature (temperature : Rat) (moveNumber kTempDecayMoves : Nat) : Rat :=
  if moveNumber ≤ kTempDecayMoves then temperature else 0

/-- Modelled from the spec (§4.5): cumulative-weight sampling across the
visited children (those with `n > 0`).  The real-valued weight
`n_i^(1/T)` of the spec is abstracted into the weight function `wf`
applied to the child's visit count; `toss` is the sampled point under the
total cumulative weight.  Returns the index and statistics of the chosen
child. -/
def sampleVisitedChild (wf : Nat → Nat) :
    List ChildStat → Nat → Nat → Option (Nat × ChildStat)
  | [], _, _ => none
  | c :: rest, idx, toss =>
    if 0 < c.n then
      if toss < wf c.n then some (idx, c)
      else sampleVisitedChild wf rest (idx + 1) (toss - wf c.n)
    else sampleVisitedChild wf rest (idx + 1) toss

/-- Modelled from the spec (§4.5, the body of
`Search::GetBestChildWithTemperature`, declared at part_000 lines 107–108, is
not under src/): with effective temperature `0` the request degenerates to
`GetBestChildNoTemperature`; otherwise sample a visited child with
probability proportional to its temperature-adjusted weight. -/
def getBestChildWithTemperature (children : List ChildStat) (t : Rat)
    (wf : Nat → Nat) (toss : Nat) : Option (Nat × ChildStat) :=
  if t = 0 then getBestChildNoTemperature children
  else sampleVisitedChild wf children 0 toss

/-- Spec-side ordering used to state best-child maximality: `a` is lexically
at most `b` on `(n, q)`. -/
def childLeKey (a b : ChildStat) : Prop :=
  a.n < b.n ∨ (a.n = b.n ∧ a.q ≤ b.q)

/-- Spec-side strict ordering used to state the earliest-index tie-break. -/
def childLtKey (a b : ChildStat) : Prop :=
  a.n < b.n ∨ (a.n = b.n ∧ a.q < b.q)

/-- The fields of `Search` that `GetBestMove` interacts with: the stop flag
and the memoized `best_move_` (part_000 lines 123 and 129–131).  `none`
models the not-yet-stored state. -/
structure BestMoveState where
  stop_ : Bool
  best_move_ : Option (Move × Move)
deriving DecidableEq

/-- Modelled from the spec (§4.5, the body of `Search::GetBestMove`, declared
at part_000 line 76, is not under src/): if `best_move_` already holds a
result, return it; otherwise compute the possibly-stochastic selection —
modelled by the `sampler` applied to this call's randomness `r` — store it in
`best_move_`, and return it. -/
def getBestMove (st : BestMoveState) (sampler : Nat → Move × Move) (r : Nat) :
    (Move × Move) × BestMoveState :=
  match st.best_move_ with
  | some p => (p, st)
  | none =>
    let p := sampler r
    (p, ⟨st.stop_, some p⟩)

/-- The outputs of a sequence of `GetBestMove` calls, one per randomness
value, threading the state. -/
def getBestMoveCalls (sampler : Nat → Move × Move) :
    BestMoveState → List Nat → List (Move × Move)
  | _, [] => []
  | st, r :: rs =>
    (getBestMove st sampler r).1 ::
      getBestMoveCalls sampler (getBestMove st sampler r).2 rs

/-- Embeds the declaration `const bool kCacheHistoryLength;` of part_000 line
167: the member is a C++ `bool`, so its initialization from the integer
`CacheHistoryLength` option value goes through the int-to-bool conversion
(nonzero becomes `true`). -/
def kCacheHistoryLengthMember (configured : Int) : Bool := configured != 0

/-- Modelled from the spec: the NNCache key includes `CacheHistoryLength`
prior plies (the key-construction code is not under src/); the member it
consults is the `bool` of part_000 line 167, whose integer value is `1` when
set and `0` otherwise, so that is the number of prior plies the member can
contribute. -/
def cacheKeyPriorPlies (configured : Int) : Int :=
  if kCacheHistoryLengthMember configured then 1 else 0

/-- An entry of `NetworkFactory::factories_` (part_001): a backend name, the
factory — abstracted to the product it would build, of abstract type `α` —
and its registration priority. -/
structure FactoryEntry (α : Type) where
  name : String
  factory : α
  priority : Int

/-- Embeds `NetworkFactory::Create` (part_001 lines 48–58): scan `factories_`
in order, return the first entry whose name equals `network`, else throw
`Exception("Unknown backend: " + network)`. -/
def create {α : Type} (factories : List (FactoryEntry α)) (network : String) :
    Except String α :=
  match factories with
  | [] => Except.error ("Unknown backend: " ++ network)
  | f :: rest =>
    if f.name == network then Except.ok f.factory else create rest network

/-- `Create` with the registry state threaded through, to express that the
method only reads `factories_` (part_001 lines 48–58 contain no mutation of
the registry). -/
def createWithState {α : Type} (factories : List (FactoryEntry α))
    (network : String) : Except String α × List (FactoryEntry α) :=
  (create factories network, factories)

/-- Embeds `NetworkFactory::RegisterNetwork` (part_001 lines 36–40):
`emplace_back` the new entry, then `std::sort` the vector under the entry
comparator `le` (the comparator is declared in `neural/factory.h`, not under
src/, so it is kept abstract). -/
def registerNetwork {α : Type} (le : FactoryEntry α → FactoryEntry α → Bool)
    (factories : List (FactoryEntry α)) (e : FactoryEntry α) :
    List (FactoryEntry α) :=
  (factories ++ [e]).mergeSort le

/-- Embeds `NetworkFactory::GetBackendsList` (part_001 lines 42–46): one name
per entry of `factories_`, in the vector's order. -/
def getBackendsList {α : Type} (factories : List (FactoryEntry α)) : List String :=
  factories.map (·.name)

/-- A concrete priority-based entry comparator, used to instantiate the
abstract comparator in witnesses. -/
def priorityLe (a b : FactoryEntry Nat) : Bool := a.priority ≤ b.priority

/-- A concrete two-child statistics list used to instantiate best-child
selection: the second child has more visits. -/
def twoChildren : List ChildStat := [⟨1, 0⟩, ⟨2, 0⟩]

/-- A concrete one-child statistics list with a visited child. -/
def oneChild : List ChildStat := [⟨1, 0⟩]

/-! ## Theorems -/

theorem stepControl_of_responded (s : ControlState)
    (h : s.responded_bestmove_ = true) (e : SearchEvent) :
    (stepControl s e).responded_bestmove_ = true ∧
      (stepControl s e).callback_count = s.callback_count := by
  cases e <;> simp [stepControl, h]

theorem foldl_stepControl_responded (evs : List SearchEvent) :
    ∀ s : ControlState, s.responded_bestmove_ = true →
      (evs.foldl stepControl s).callback_count = s.callback_count := by
  induction evs with
  | nil => intro s _; rfl
  | cons e rest ih =>
    intro s h
    obtain ⟨h1, h2⟩ := stepControl_of_responded s h e
    simpa [List.foldl_cons, h2] using ih (stepControl s e) h1

theorem foldl_stepControl_count (evs : List SearchEvent) :
    ∀ s : ControlState, s.responded_bestmove_ = false →
      (evs.foldl stepControl s).callback_count =
        s.callback_count + (if publishesBestmove evs then 1 else 0) := by
  induction evs with
  | nil => intro s _; simp [publishesBestmove]
  | cons e rest ih =>
    intro s h
    cases e with
    | stopCmd =>
      simpa [publishesBestmove, stepControl, h] using
        ih ⟨true, s.responded_bestmove_, s.callback_count⟩ h
    | abortCmd =>
      have := foldl_stepControl_responded rest ⟨true, true, s.callback_count⟩ rfl
      simpa [publishesBestmove, stepControl] using this
    | workerRespond =>
      have := foldl_stepControl_responded rest
        ⟨s.stop_, true, s.callback_count + 1⟩ rfl
      simpa [publishesBestmove, stepControl, h] using this

/-- Claim C1: over any interleaving of `Stop()`, `Abort()` and worker
completion events, the `BestMoveInfo` callback fires exactly once when some
worker reaches the completion point before any `Abort()`, and zero times
otherwise (in particular when `Abort()` precedes every worker response); at
most one callback ever fires, the compare-and-set on `responded_bestmove_`
selecting a single publishing worker; and `Abort()` sets `stop_` and
`responded_bestmove_` both. -/
theorem bestmove_callback_once (evs : List SearchEvent) :
    (runControl evs).callback_count = (if publishesBestmove evs then 1 else 0) ∧
    (runControl evs).callback_count ≤ 1 ∧
    (∀ s : ControlState,
      (stepControl s .abortCmd).stop_ = true ∧
      (stepControl s .abortCmd).responded_bestmove_ = true ∧
      (stepControl s .abortCmd).callback_count = s.callback_count) := by
  have h := foldl_stepControl_count evs initialControlState rfl
  refine ⟨by simpa [runControl, initialControlState] using h, ?_, ?_⟩
  · have h' : (runControl evs).callback_count =
        (if publishesBestmove evs then 1 else 0) := by
      simpa [runControl, initialControlState] using h
    rw [h']
    split <;> omega
  · intro s
    exact ⟨rfl, rfl, rfl⟩

/-- Claim C2: `IsSearchActive` holds exactly when `stop_` is false and, unless
`infinite` is set, none of the visits, playouts and time limits is reached
(each limit considered only when its field is non-negative, per
`visitsLimitReached`/`playoutsLimitReached`/`timeLimitReached`); with
`infinite` set the result is exactly `!stop_`, so the search stays active
until `stop_` is set by `Stop()`. -/
theorem isSearchActive_spec (l : SearchLimits) (stop : Bool)
    (tp iv e : Int) :
    (isSearchActive l stop tp iv e = true ↔
      (stop = false ∧ (l.infinite = true ∨
        (visitsLimitReached l tp iv = false ∧
         playoutsLimitReached l tp = false ∧
         timeLimitReached l e = false)))) ∧
    (l.infinite = true → isSearchActive l stop tp iv e = !stop) := by
  constructor
  · cases stop <;>
      cases hinf : l.infinite <;>
      cases hv : visitsLimitReached l tp iv <;>
      cases hp : playoutsLimitReached l tp <;>
      cases ht : timeLimitReached l e <;>
      simp [isSearchActive, hinf, hv, hp, ht]
  · intro h
    cases stop <;> simp [isSearchActive, h]

theorem isSearchActive_spec_witness :
    isSearchActive ⟨-1, -1, -1, true, []⟩ false 0 0 0 = !false :=
  (isSearchActive_spec ⟨-1, -1, -1, true, []⟩ false 0 0 0).2 rfl

/-- Claim C3: in the stage-7 (`UpdateCounters`) critical section, the
`total_playouts_` increment happens while `counters_mutex_` is held (and,
per the `GUARDED_BY` annotation, while `nodes_mutex_` is held); the
`GUARDED_BY` annotations put `stop_`, `responded_bestmove_`,
`found_best_move_` and `best_move_` under `counters_mutex_`; and
`counters_mutex_` is acquired after `nodes_mutex_` in the lock order, which
the trace respects: at each acquisition of `counters_mutex_`, `nodes_mutex_`
is already held. -/
theorem updateCounters_locking :
    (∀ i < updateCountersTrace.length,
      updateCountersTrace.get? i = some LockOp.incrTotalPlayouts →
        MutexId.counters ∈ heldAt updateCountersTrace i ∧
        MutexId.nodes ∈ heldAt updateCountersTrace i) ∧
    guardOf .stop_ = .counters ∧
    guardOf .responded_bestmove_ = .counters ∧
    guardOf .found_best_move_ = .counters ∧
    guardOf .best_move_ = .counters ∧
    acquiredAfter .counters = some .nodes ∧
    (∀ i < updateCountersTrace.length,
      updateCountersTrace.get? i = some (LockOp.acquire .counters) →
        MutexId.nodes ∈ heldAt updateCountersTrace i) := by
  decide

theorem updateCounters_locking_witness :
    MutexId.counters ∈ heldAt updateCountersTrace 2 ∧
    MutexId.nodes ∈ heldAt updateCountersTrace 2 :=
  updateCounters_locking.1 2 (by decide) (by decide)

theorem getBestMove_of_stored (st : BestMoveState) (sampler : Nat → Move × Move)
    (r : Nat) (p : Move × Move) (h : st.best_move_ = some p) :
    getBestMove st sampler r = (p, st) := by
  simp [getBestMove, h]

theorem getBestMoveCalls_of_stored (sampler : Nat → Move × Move)
    (p : Move × Move) (rs : List Nat) :
    ∀ st : BestMoveState, st.best_move_ = some p →
      ∀ q ∈ getBestMoveCalls sampler st rs, q = p := by
  induction rs with
  | nil => intro st _ q hq; simp [getBestMoveCalls] at hq
  | cons r rest ih =>
    intro st h q hq
    rw [getBestMoveCalls, getBestMove_of_stored st sampler r p h] at hq
    rcases List.mem_cons.mp hq with hq1 | hq1
    · exact hq1
    · exact ih st h q hq1

/-- Claim C4: with the search stopped and `best_move_` not yet populated,
`GetBestMove()` stores its first (possibly stochastic, via `sampler` and the
per-call randomness) result in `best_move_`, and every subsequent call —
whatever randomness it draws — returns that same `(best, ponder)` pair. -/
theorem getBestMove_consistent (st : BestMoveState)
    (sampler : Nat → Move × Move) (r : Nat) (rs : List Nat)
    (hstop : st.stop_ = true) (hnone : st.best_move_ = none) :
    (getBestMove st sampler r).2.best_move_ = some (getBestMove st sampler r).1 ∧
    ∀ q ∈ getBestMoveCalls sampler (getBestMove st sampler r).2 rs,
      q = (getBestMove st sampler r).1 := by
  have hfirst : getBestMove st sampler r =
      (sampler r, ⟨st.stop_, some (sampler r)⟩) := by
    simp [getBestMove, hnone]
  rw [hfirst]
  exact ⟨rfl, getBestMoveCalls_of_stored sampler (sampler r) rs _ rfl⟩

theorem getBestMove_consistent_witness :
    (getBestMove ⟨true, none⟩ (fun k => (k, k + 1)) 5).2.best_move_ =
      some (getBestMove ⟨true, none⟩ (fun k => (k, k + 1)) 5).1 ∧
    ∀ q ∈ getBestMoveCalls (fun k => (k, k + 1))
        (getBestMove ⟨true, none⟩ (fun k => (k, k + 1)) 5).2 [7, 9],
      q = (getBestMove ⟨true, none⟩ (fun k => (k, k + 1)) 5).1 :=
  getBestMove_consistent ⟨true, none⟩ (fun k => (k, k + 1)) 5 [7, 9] rfl rfl

theorem childLeKey_of_lt {a b : ChildStat} (h : childLtKey a b) : childLeKey a b := by
  rcases h with h | ⟨h1, h2⟩
  · exact Or.inl h
  · exact Or.inr ⟨h1, le_of_lt h2⟩

theorem childLeKey_trans {a b c : ChildStat}
    (h1 : childLeKey a b) (h2 : childLeKey b c) : childLeKey a c := by
  rcases h1 with h1 | ⟨h1n, h1q⟩ <;> rcases h2 with h2 | ⟨h2n, h2q⟩
  · exact Or.inl (lt_trans h1 h2)
  · exact Or.inl (h2n ▸ h1)
  · exact Or.inl (h1n ▸ h2)
  · exact Or.inr ⟨h1n.trans h2n, le_trans h1q h2q⟩

theorem betterChild_eq_false {a b : ChildStat}
    (h : betterChild a b = false) : childLeKey a b := by
  simp only [betterChild, Bool.or_eq_false_iff, Bool.and_eq_false_iff,
    decide_eq_false_iff_not, beq_eq_false_iff_ne, ne_eq] at h
  obtain ⟨h1, h2⟩ := h
  rcases Nat.lt_or_ge a.n b.n with hlt | hge
  · exact Or.inl hlt
  · have heq : a.n = b.n := le_antisymm (not_lt.mp h1) hge
    rcases h2 with h2 | h2
    · exact absurd heq h2
    · exact Or.inr ⟨heq, not_lt.mp h2⟩

theorem betterChild_eq_true {a b : ChildStat}
    (h : betterChild a b = true) : childLtKey b a := by
  simp only [betterChild, Bool.or_eq_true, Bool.and_eq_true,
    decide_eq_true_eq, beq_iff_eq] at h
  rcases h with h | ⟨h1, h2⟩
  · exact Or.inl h
  · exact Or.inr ⟨h1.symm, h2⟩

theorem getBestChildNoTemperature_eq_none {l : List ChildStat}
    (h : getBestChildNoTemperature l = none) : l = [] := by
  cases l with
  | nil => rfl
  | cons c rest =>
    rw [getBestChildNoTemperature] at h
    rcases hgb : getBestChildNoTemperature rest with _ | ⟨j, b⟩ <;>
      rw [hgb] at h <;> rw [bestChildStep] at h
    · simp at h
    · by_cases hbc : betterChild b c = true <;> simp [hbc] at h

theorem getBestChildNoTemperature_sound :
    ∀ (l : List ChildStat) (i : Nat) (c : ChildStat),
      getBestChildNoTemperature l = some (i, c) →
        l.get? i = some c ∧
        (∀ j cj, l.get? j = some cj → childLeKey cj c) ∧
        (∀ j cj, j < i → l.get? j = some cj → childLtKey cj c) := by
  intro l
  induction l with
  | nil => intro i c h; simp [getBestChildNoTemperature] at h
  | cons c rest ih =>
    intro i cc h
    rw [getBestChildNoTemperature] at h
    rcases hgb : getBestChildNoTemperature rest with _ | ⟨j, b⟩ <;>
      rw [hgb] at h <;> rw [bestChildStep] at h
    · -- rest has no best child, hence rest = []
      have hrest : rest = [] := getBestChildNoTemperature_eq_none hgb
      obtain ⟨hi, hc⟩ : i = 0 ∧ cc = c := by
        simpa [eq_comm] using h
      subst hi; subst hc; subst hrest
      refine ⟨rfl, ?_, ?_⟩
      · intro j cj hj
        cases j with
        | zero =>
          obtain rfl : cc = cj := by simpa using hj
          exact Or.inr ⟨rfl, le_refl _⟩
        | succ j' => simp at hj
      · intro j cj hj
        omega
    · obtain ⟨hget, hmax, hmin⟩ := ih j b hgb
      by_cases hbc : betterChild b c = true
      · rw [if_pos hbc] at h
        obtain ⟨hi, hc⟩ : i = j + 1 ∧ cc = b := by
          simpa [eq_comm] using h
        subst hi; subst hc
        have hcb : childLtKey c cc := betterChild_eq_true hbc
        refine ⟨by simpa using hget, ?_, ?_⟩
        · intro j0 cj hj0
          cases j0 with
          | zero =>
            obtain rfl : c = cj := by simpa using hj0
            exact childLeKey_of_lt hcb
          | succ j' => exact hmax j' cj (by simpa using hj0)
        · intro j0 cj hj0 hj0get
          cases j0 with
          | zero =>
            obtain rfl : c = cj := by simpa using hj0get
            exact hcb
          | succ j' =>
            have : j' < j := by omega
            exact hmin j' cj this (by simpa using hj0get)
      · rw [if_neg hbc] at h
        obtain ⟨hi, hc⟩ : i = 0 ∧ cc = c := by
          simpa [eq_comm] using h
        subst hi; subst hc
        have hbcc : childLeKey b cc :=
          betterChild_eq_false (Bool.eq_false_iff.mpr hbc)
        refine ⟨rfl, ?_, ?_⟩
        · intro j0 cj hj0
          cases j0 with
          | zero =>
            obtain rfl : cc = cj := by simpa using hj0
            exact Or.inr ⟨rfl, le_refl _⟩
          | succ j' =>
            exact childLeKey_trans (hmax j' cj (by simpa using hj0)) hbcc
        · intro j0 cj hj0 _
          omega

/-- Claim C5: on any node with at least one visited child,
`GetBestChildNoTemperature` returns an existing child edge whose visit count
`n` is maximal; among children with that same `n` its `q` is maximal; and no
earlier edge (in move-generation order) ties it on both `n` and `q`. -/
theorem getBestChildNoTemperature_max (l : List ChildStat)
    (h : ∃ c ∈ l, 0 < c.n) :
    ∃ i c, getBestChildNoTemperature l = some (i, c) ∧
      l.get? i = some c ∧
      (∀ j cj, l.get? j = some cj → cj.n ≤ c.n) ∧
      (∀ j cj, l.get? j = some cj → cj.n = c.n → cj.q ≤ c.q) ∧
      (∀ j cj, j < i → l.get? j = some cj → ¬(cj.n = c.n ∧ cj.q = c.q)) := by
  obtain ⟨c0, hc0, _⟩ := h
  have hne : l ≠ [] := by
    intro hl; rw [hl] at hc0; simp at hc0
  rcases hgb : getBestChildNoTemperature l with _ | ⟨i, c⟩
  · exact absurd (getBestChildNoTemperature_eq_none hgb) hne
  · obtain ⟨hget, hmax, hmin⟩ := getBestChildNoTemperature_sound l i c hgb
    refine ⟨i, c, rfl, hget, ?_, ?_, ?_⟩
    · intro j cj hj
      rcases hmax j cj hj with hlt | ⟨heq, _⟩
      · exact le_of_lt hlt
      · exact le_of_eq heq
    · intro j cj hj heq
      rcases hmax j cj hj with hlt | ⟨_, hq⟩
      · omega
      · exact hq
    · intro j cj hj hjget ⟨heqn, heqq⟩
      rcases hmin j cj hj hjget with hlt | ⟨_, hq⟩
      · omega
      · exact absurd heqq (ne_of_lt hq)

theorem getBestChildNoTemperature_max_witness :
    ∃ i c, getBestChildNoTemperature twoChildren = some (i, c) ∧
      twoChildren.get? i = some c ∧
      (∀ j cj, twoChildren.get? j = some cj → cj.n ≤ c.n) ∧
      (∀ j cj, twoChildren.get? j = some cj → cj.n = c.n → cj.q ≤ c.q) ∧
      (∀ j cj, j < i → twoChildren.get? j = some cj →
        ¬(cj.n = c.n ∧ cj.q = c.q)) :=
  getBestChildNoTemperature_max twoChildren
    ⟨⟨1, 0⟩, by simp [twoChildren], by norm_num⟩

/-- Claim C6: on a parent with `n ≥ 1` and at least one visited child,
`GetBestChildWithTemperature` called with effective temperature `0` (as
produced by the temperature-decay rule, or requested directly) returns the
same child edge as `GetBestChildNoTemperature`, for every abstracted
sampling weight function and every random toss. -/
theorem getBestChildWithTemperature_zero (l : List ChildStat) (parentN : Nat)
    (temperature : Rat) (moveNumber decayMoves : Nat) (wf : Nat → Nat)
    (toss : Nat) (hp : 1 ≤ parentN) (hv : ∃ c ∈ l, 0 < c.n)
    (h0 : effectiveTemperature temperature moveNumber decayMoves = 0) :
    getBestChildWithTemperature l
        (effectiveTemperature temperature moveNumber decayMoves) wf toss =
      getBestChildNoTemperature l := by
  rw [h0]
  simp [getBestChildWithTemperature]

theorem getBestChildWithTemperature_zero_witness :
    getBestChildWithTemperature oneChild (effectiveTemperature 1 3 2)
        (fun n => n) 0 =
      getBestChildNoTemperature oneChild :=
  getBestChildWithTemperature_zero oneChild 1 1 3 2 (fun n => n) 0
    (le_refl 1) ⟨⟨1, 0⟩, by simp [oneChild], by norm_num⟩ rfl

/-- Claim C7 (code bug): the member that the cache-key construction consults
is declared `const bool kCacheHistoryLength` (part_000 line 167), so a
configured `CacheHistoryLength` of `2` is truncated by the C++ int-to-bool
conversion: the key includes `1` prior ply, not `2`, and configuring `2`
yields exactly the same key contents as configuring `1`. -/
theorem cacheHistoryLength_bool_truncation :
    kCacheHistoryLengthMember 2 = true ∧
    cacheKeyPriorPlies 2 = 1 ∧
    cacheKeyPriorPlies 2 ≠ 2 ∧
    cacheKeyPriorPlies 2 = cacheKeyPriorPlies 1 := by
  decide

/-- Claim C8: a default-constructed `SearchLimits` has `visits = -1`,
`playouts = -1`, `time_ms = -1`, `infinite = false` and an empty
`searchmoves` list, and with these defaults none of the visit, playout or
time limit predicates is ever reached, for any playout count, initial visit
count or elapsed time. -/
theorem defaultSearchLimits_spec :
    defaultSearchLimits.visits = -1 ∧
    defaultSearchLimits.playouts = -1 ∧
    defaultSearchLimits.time_ms = -1 ∧
    defaultSearchLimits.infinite = false ∧
    defaultSearchLimits.searchmoves = [] ∧
    (∀ tp iv : Int, visitsLimitReached defaultSearchLimits tp iv = false) ∧
    (∀ tp : Int, playoutsLimitReached defaultSearchLimits tp = false) ∧
    (∀ e : Int, timeLimitReached defaultSearchLimits e = false) :=
  ⟨rfl, rfl, rfl, rfl, rfl,
   fun _ _ => rfl, fun _ => rfl, fun _ => rfl⟩

/-- Claim C9: `NetworkFactory::Create` returns the product of the first
entry of `factories_` (scanned in the vector's maintained order) whose name
equals the requested backend, and otherwise throws an exception whose
message is `"Unknown backend: "` followed by the requested name; in either
case the registry is left unchanged. -/
theorem networkFactory_create_spec {α : Type}
    (factories : List (FactoryEntry α)) (network : String) :
    (create factories network =
      match factories.find? (fun f => f.name == network) with
      | some f => Except.ok f.factory
      | none => Except.error ("Unknown backend: " ++ network)) ∧
    (createWithState factories network).2 = factories := by
  refine ⟨?_, rfl⟩
  induction factories with
  | nil => rfl
  | cons f rest ih =>
    cases hf : (f.name == network)
    · rw [create, if_neg (by simp [hf])]
      rw [ih]
      simp [List.find?, hf]
    · rw [create, if_pos (by simp [hf])]
      simp [List.find?, hf]

theorem registerNetwork_perm {α : Type}
    (le : FactoryEntry α → FactoryEntry α → Bool)
    (factories : List (FactoryEntry α)) (e : FactoryEntry α) :
    (registerNetwork le factories e).Perm (factories ++ [e]) :=
  List.mergeSort_perm (factories ++ [e]) le

/-- Claim C10: after `RegisterNetwork` the `factories_` vector is sorted
under the entry comparator (for any transitive and total comparator, the
actual one being declared in `neural/factory.h`); the new vector holds
exactly the previous entries plus the registered one; and `GetBackendsList`
returns exactly one name per registered factory, in the vector's sorted
order. -/
theorem registerNetwork_sorted {α : Type}
    (le : FactoryEntry α → FactoryEntry α → Bool)
    (htrans : ∀ a b c, le a b = true → le b c = true → le a c = true)
    (htotal : ∀ a b, (le a b || le b a) = true)
    (factories : List (FactoryEntry α)) (e : FactoryEntry α) :
    List.Sorted (fun a b => le a b = true) (registerNetwork le factories e) ∧
    (registerNetwork le factories e).Perm (factories ++ [e]) ∧
    getBackendsList (registerNetwork le factories e) =
      (registerNetwork le factories e).map (·.name) ∧
    (getBackendsList (registerNetwork le factories e)).Perm
      (getBackendsList factories ++ [e.name]) := by
  refine ⟨?_, registerNetwork_perm le factories e, rfl, ?_⟩
  · exact List.sorted_mergeSort htrans htotal (factories ++ [e])
  · have hp := (registerNetwork_perm le factories e).map (·.name)
    rw [List.map_append] at hp
    exact hp

theorem registerNetwork_sorted_witness :
    List.Sorted (fun a b => priorityLe a b = true)
      (registerNetwork priorityLe [⟨"b", 0, 5⟩] ⟨"a", 1, 3⟩) ∧
    (registerNetwork priorityLe [⟨"b", 0, 5⟩] ⟨"a", 1, 3⟩).Perm
      ([⟨"b", 0, 5⟩] ++ [⟨"a", 1, 3⟩]) ∧
    getBackendsList (registerNetwork priorityLe [⟨"b", 0, 5⟩] ⟨"a", 1, 3⟩) =
      (registerNetwork priorityLe [⟨"b", 0, 5⟩] ⟨"a", 1, 3⟩).map (·.name) ∧
    (getBackendsList (registerNetwork priorityLe [⟨"b", 0, 5⟩] ⟨"a", 1, 3⟩)).Perm
      (getBackendsList [⟨"b", 0, 5⟩] ++ [FactoryEntry.name ⟨"a", 1, 3⟩]) :=
  registerNetwork_sorted priorityLe
    (by
      intro a b c hab hbc
      simp only [priorityLe, decide_eq_true_eq] at *
      omega)
    (by
      intro a b
      simp only [priorityLe, Bool.or_eq_true, decide_eq_true_eq]
      omega)
    [⟨"b", 0, 5⟩] ⟨"a", 1, 3⟩

end cczero
